import Mathlib

/-!
# Verification of the PeixeCidade sine-wave servo sketch

Shallow embedding of `src/fish.cpp`, an Arduino sketch that drives a single
Dynamixel servo sinusoidally around a center position.

* The motion parameters (`CENTER_POS`, `AMPLITUDE`, `SPEED`) and identifiers
  (`MOTOR_ID`, `BAUDRATE`) are the compile-time constants of the sketch.
* The real-valued position expression of the loop body,
  `CENTER_POS + AMPLITUDE * sin(2 * M_PI * SPEED * t)`, is embedded over `ℝ`
  (`positionReal`); the C cast `(int)position` is embedded as truncation
  toward zero (`cIntCast`).
* `millis()` is a 32-bit (`unsigned long` on the ESP32-S3) millisecond tick;
  the unsigned subtraction `millis() - startTime` is embedded as arithmetic
  modulo `2^32` (`usub32`, `elapsedMs`, `elapsedAt`).
* The observable effects of `setup()` and `loop()` (library calls and serial
  prints) are embedded as an `Action` trace produced by a small state machine
  (`step`, `run`) whose phases are: booting, halted after a failed ping
  (the `while (true);` of `setup`), and looping.
-/

namespace Fish

/-- `const float CENTER_POS = 2048.0;` — midpoint of the Dynamixel 0–4095 range. -/
def CENTER_POS : ℝ := 2048

/-- `const float AMPLITUDE = 400.0;` — sine wave amplitude. -/
def AMPLITUDE : ℝ := 400

/-- `const float SPEED = 0.5;` — oscillation frequency in Hz. -/
def SPEED : ℝ := 0.5

/-- `const uint8_t MOTOR_ID = 1;`. -/
def MOTOR_ID : ℕ := 1

/-- `#define BAUDRATE 57600`. -/
def BAUDRATE : ℕ := 57600

/-- The real-valued sine expression of the loop body:
`CENTER_POS + AMPLITUDE * sin(2 * M_PI * SPEED * t)` for elapsed seconds `t`. -/
noncomputable def positionReal (t : ℝ) : ℝ :=
  CENTER_POS + AMPLITUDE * Real.sin (2 * Real.pi * SPEED * t)

/-- The C cast `(int)x` applied to a real value: truncation toward zero. -/
noncomputable def cIntCast (x : ℝ) : ℤ :=
  if 0 ≤ x then ⌊x⌋ else ⌈x⌉

/-- The integer goal position the loop sends for elapsed seconds `t`:
`(int)(CENTER_POS + AMPLITUDE * sin(2 * M_PI * SPEED * t))`. -/
noncomputable def goalPosition (t : ℝ) : ℤ :=
  cIntCast (positionReal t)

/-- Modulus of `unsigned long` (32-bit) arithmetic on the target: `2^32`. -/
def UMOD : ℕ := 4294967296

/-- The `millis()` reading at absolute millisecond time `r` since boot:
the 32-bit tick counter wraps modulo `2^32`. -/
def millis (r : ℕ) : ℕ := r % UMOD

/-- 32-bit unsigned subtraction `a - b` as performed on `unsigned long`. -/
def usub32 (a b : ℕ) : ℕ := (a % UMOD + (UMOD - b % UMOD)) % UMOD

/-- `millis() - startTime` in the loop body: unsigned 32-bit subtraction of
the stored `startTime` reading from the current `millis()` reading. -/
def elapsedMs (startTime now : ℕ) : ℕ := usub32 now startTime

/-- Elapsed milliseconds as a function of absolute times: the tick counter is
read (wrapping) at the start time `s` and at the current time `r`. -/
def elapsedAt (s r : ℕ) : ℕ := elapsedMs (millis s) (millis r)

/-- The goal position computed in a loop iteration whose stored `startTime`
reading is `startTime` and whose current `millis()` reading is `now`:
`t = (millis() - startTime) / 1000.0`, then the cast sine expression. -/
noncomputable def loopGoal (startTime now : ℕ) : ℤ :=
  goalPosition ((elapsedMs startTime now : ℝ) / 1000)

/- ### Helper lemmas about the motion function -/

/-- The sine expression is at least `CENTER_POS - AMPLITUDE = 1648`. -/
lemma positionReal_lb (t : ℝ) : 1648 ≤ positionReal t := by
  have h := Real.neg_one_le_sin (2 * Real.pi * SPEED * t)
  unfold positionReal CENTER_POS AMPLITUDE
  nlinarith

/-- The sine expression is at most `CENTER_POS + AMPLITUDE = 2448`. -/
lemma positionReal_ub (t : ℝ) : positionReal t ≤ 2448 := by
  have h := Real.sin_le_one (2 * Real.pi * SPEED * t)
  unfold positionReal CENTER_POS AMPLITUDE
  nlinarith

/-- Since the sine expression is always positive, the C cast is the floor. -/
lemma goalPosition_eq_floor (t : ℝ) : goalPosition t = ⌊positionReal t⌋ := by
  unfold goalPosition cIntCast
  have h : (0 : ℝ) ≤ positionReal t := le_trans (by norm_num) (positionReal_lb t)
  simp [h]

/-- Evaluating the goal position when the sine factor is known exactly. -/
lemma goalPosition_of_sin_eq {t c : ℝ} {z : ℤ}
    (hs : Real.sin (2 * Real.pi * SPEED * t) = c)
    (hz : (2048 : ℝ) + 400 * c = (z : ℝ)) : goalPosition t = z := by
  rw [goalPosition_eq_floor]
  unfold positionReal CENTER_POS AMPLITUDE
  rw [hs, hz, Int.floor_intCast]

/- ### Evaluating the goal position at particular times -/

lemma sqrt_two_lb : (1.4125 : ℝ) ≤ Real.sqrt 2 := by
  nlinarith [Real.sq_sqrt (by norm_num : (0:ℝ) ≤ 2), Real.sqrt_nonneg 2]

lemma sqrt_two_ub : Real.sqrt 2 < (1.415 : ℝ) := by
  nlinarith [Real.sq_sqrt (by norm_num : (0:ℝ) ≤ 2), Real.sqrt_nonneg 2]

/-- At `t = 1/4` s the sine expression evaluates to `2048 + 200·√2`. -/
lemma positionReal_quarter : positionReal (1/4 : ℝ) = 2048 + 200 * Real.sqrt 2 := by
  unfold positionReal CENTER_POS AMPLITUDE SPEED
  rw [show 2 * Real.pi * (0.5 : ℝ) * (1/4 : ℝ) = Real.pi / 4 by ring,
    Real.sin_pi_div_four]
  ring

/-- At `t = 1/4` s the C cast yields `2330` (truncation). -/
lemma goalPosition_quarter : goalPosition (1/4 : ℝ) = 2330 := by
  rw [goalPosition_eq_floor, positionReal_quarter, Int.floor_eq_iff]
  have h1 := sqrt_two_lb
  have h2 := sqrt_two_ub
  push_cast
  constructor <;> nlinarith

/-- At `t = 1/4` s rounding the sine expression yields `2331`. -/
lemma round_positionReal_quarter : round (positionReal (1/4 : ℝ)) = 2331 := by
  rw [round_eq, positionReal_quarter, Int.floor_eq_iff]
  have h1 := sqrt_two_lb
  have h2 := sqrt_two_ub
  push_cast
  constructor <;> nlinarith

/-- `goal_position(0) = 2048`. -/
lemma goalPosition_zero : goalPosition 0 = 2048 := by
  have hs : Real.sin (2 * Real.pi * SPEED * 0) = 0 := by
    rw [mul_zero, Real.sin_zero]
  exact goalPosition_of_sin_eq hs (by norm_num)

/-- `goal_position(0.5) = 2448`. -/
lemma goalPosition_half : goalPosition (0.5 : ℝ) = 2448 := by
  have hs : Real.sin (2 * Real.pi * SPEED * (0.5 : ℝ)) = 1 := by
    rw [show 2 * Real.pi * SPEED * (0.5 : ℝ) = Real.pi / 2 by unfold SPEED; ring,
      Real.sin_pi_div_two]
  exact goalPosition_of_sin_eq hs (by norm_num)

/-- `goal_position(1.0) = 2048`. -/
lemma goalPosition_one : goalPosition (1 : ℝ) = 2048 := by
  have hs : Real.sin (2 * Real.pi * SPEED * (1 : ℝ)) = 0 := by
    rw [show 2 * Real.pi * SPEED * (1 : ℝ) = Real.pi by unfold SPEED; ring,
      Real.sin_pi]
  exact goalPosition_of_sin_eq hs (by norm_num)

/-- `goal_position(1.5) = 1648`. -/
lemma goalPosition_three_halves : goalPosition (1.5 : ℝ) = 1648 := by
  have hs : Real.sin (2 * Real.pi * SPEED * (1.5 : ℝ)) = -1 := by
    rw [show 2 * Real.pi * SPEED * (1.5 : ℝ) = Real.pi / 2 + Real.pi by unfold SPEED; ring,
      Real.sin_add_pi, Real.sin_pi_div_two]
  exact goalPosition_of_sin_eq hs (by norm_num)

/-- `goal_position(n · 0.5/SPEED) = 2048` for every natural `n`. -/
lemma goalPosition_nat_mul : ∀ n : ℕ, goalPosition ((n : ℝ) * (0.5 / SPEED)) = 2048 := by
  intro n
  have hs : Real.sin (2 * Real.pi * SPEED * ((n : ℝ) * (0.5 / SPEED))) = 0 := by
    rw [show 2 * Real.pi * SPEED * ((n : ℝ) * (0.5 / SPEED)) = (n : ℝ) * Real.pi by
          unfold SPEED; ring,
      Real.sin_nat_mul_pi]
  exact goalPosition_of_sin_eq hs (by norm_num)

/- ### Elapsed-time arithmetic -/

/-- On the first loop execution the elapsed time is `0`. -/
lemma elapsedMs_self (a : ℕ) : elapsedMs a a = 0 := by
  simp only [elapsedMs, usub32, UMOD]
  omega

/-- Within the first `2^32` ms the unsigned subtraction computes the true
difference modulo `2^32`. -/
lemma elapsedAt_eq {s r : ℕ} (h : s ≤ r) : elapsedAt s r = (r - s) % UMOD := by
  simp only [elapsedAt, elapsedMs, usub32, millis, UMOD] at *
  omega

/- ### Observable actions of `setup()` and `loop()` -/

/-- The two string literals printed by `setup()` (`Serial.println(...)`). -/
inductive Msg
  /-- `"Motor not responding. Check wiring and ID."` -/
  | motorNotResponding
  /-- `"Sine wave motion initialized."` -/
  | sineInit
  deriving DecidableEq

/-- Dynamixel operating modes used by the sketch (`OP_POSITION`). -/
inductive OpMode
  /-- `OP_POSITION` -/
  | position
  deriving DecidableEq

/-- Control-table items written by the sketch. -/
inductive CtItem
  /-- `ControlTableItem::PROFILE_VELOCITY` -/
  | profileVelocity
  /-- `ControlTableItem::PROFILE_ACCELERATION` -/
  | profileAcceleration
  deriving DecidableEq

/-- Observable effects of the sketch, one constructor per library or serial
call occurring in `setup()`/`loop()`. -/
inductive Action
  /-- `Serial.begin(115200)` -/
  | serialBegin (baud : ℕ)
  /-- `DXL_SERIAL.begin(BAUDRATE, SERIAL_8N1, DXL_RX_PIN, DXL_TX_PIN)` -/
  | dxlSerialBegin (baud : ℕ)
  /-- `dxl.begin(BAUDRATE)` -/
  | dxlBegin (baud : ℕ)
  /-- `dxl.setPortProtocolVersion(DXL_PROTOCOL_VERSION)` -/
  | setPortProtocolVersion
  /-- `dxl.ping(MOTOR_ID)` -/
  | ping (id : ℕ)
  /-- `Serial.println("...")` -/
  | printlnMsg (m : Msg)
  /-- `dxl.torqueOff(MOTOR_ID)` -/
  | torqueOff (id : ℕ)
  /-- `dxl.setOperatingMode(MOTOR_ID, OP_POSITION)` -/
  | setOperatingMode (id : ℕ) (mode : OpMode)
  /-- `dxl.torqueOn(MOTOR_ID)` -/
  | torqueOn (id : ℕ)
  /-- `dxl.writeControlTableItem(item, MOTOR_ID, v)` -/
  | writeControlTableItem (item : CtItem) (id : ℕ) (v : ℕ)
  /-- `dxl.setGoalPosition(MOTOR_ID, (int)position)` -/
  | setGoalPosition (id : ℕ) (v : ℤ)
  /-- `Serial.print("Goal: ")` -/
  | printGoalLabel
  /-- `Serial.println((int)position)` -/
  | printlnInt (v : ℤ)
  /-- `delay(20)` -/
  | delay (ms : ℕ)
  deriving DecidableEq

/-- Does the action enable torque? -/
def Action.isTorqueOn : Action → Bool
  | Action.torqueOn _ => true
  | _ => false

/-- Does the action set the operating mode? -/
def Action.isSetOperatingMode : Action → Bool
  | Action.setOperatingMode _ _ => true
  | _ => false

/-- Does the action write a goal position? -/
def Action.isSetGoalPosition : Action → Bool
  | Action.setGoalPosition _ _ => true
  | _ => false

/-- The trace of `setup()`: serial and protocol configuration, the ping, then
either the failure branch (diagnostic print; the `while (true);` halt is
modelled by the machine below) or the normal branch (torque off, operating
mode, torque on, the two profile writes, the init print). -/
def setupTrace (pingOk : Bool) : List Action :=
  [Action.serialBegin 115200,
   Action.dxlSerialBegin BAUDRATE,
   Action.dxlBegin BAUDRATE,
   Action.setPortProtocolVersion,
   Action.ping MOTOR_ID] ++
  (if pingOk then
    [Action.torqueOff MOTOR_ID,
     Action.setOperatingMode MOTOR_ID OpMode.position,
     Action.torqueOn MOTOR_ID,
     Action.writeControlTableItem CtItem.profileVelocity MOTOR_ID 400,
     Action.writeControlTableItem CtItem.profileAcceleration MOTOR_ID 50,
     Action.printlnMsg Msg.sineInit]
   else
    [Action.printlnMsg Msg.motorNotResponding])

/-- The trace of one execution of `loop()` with stored `startTime` reading
`startTime` and current `millis()` reading `now`: goal-position write, debug
print of the same cast value, and the 20 ms delay. -/
noncomputable def loopBody (startTime now : ℕ) : List Action :=
  [Action.setGoalPosition MOTOR_ID (loopGoal startTime now),
   Action.printGoalLabel,
   Action.printlnInt (loopGoal startTime now),
   Action.delay 20]

/-- Control phase of the sketch: before `setup()` has run, halted inside
`while (true);`, or executing `loop()` repeatedly. -/
inductive Phase
  /-- `setup()` has not run yet. -/
  | boot
  /-- stuck in `while (true);` after a failed ping. -/
  | halted
  /-- `loop()` is being called repeatedly. -/
  | looping
  deriving DecidableEq

/-- Machine state: control phase, the static `startTime` variable of `loop()`
(`none` before its one-time initialization), and the emitted action trace. -/
structure MState where
  phase : Phase
  startTime : Option ℕ
  out : List Action
  deriving DecidableEq

/-- Initial state: nothing has run. -/
def initState : MState := ⟨Phase.boot, none, []⟩

/-- One step of the sketch. In phase `boot` it runs `setup()` with ping
outcome `pingOk`; in phase `halted` (`while (true);`) nothing happens; in
phase `looping` it runs `loop()` once with current `millis()` reading `now`,
initializing the static `startTime` on first execution. -/
noncomputable def step (pingOk : Bool) (now : ℕ) (st : MState) : MState :=
  match st.phase with
  | Phase.boot =>
      if pingOk then
        ⟨Phase.looping, st.startTime, st.out ++ setupTrace true⟩
      else
        ⟨Phase.halted, st.startTime, st.out ++ setupTrace false⟩
  | Phase.halted => st
  | Phase.looping =>
      let s := st.startTime.getD now
      ⟨Phase.looping, some s, st.out ++ loopBody s now⟩

/-- `n` steps of the sketch; `ms k` is the `millis()` reading at step `k`
(step `0` is `setup()`, which does not read `millis()`). -/
noncomputable def run (pingOk : Bool) (ms : ℕ → ℕ) : ℕ → MState
  | 0 => initState
  | n + 1 => step pingOk (ms n) (run pingOk ms n)

/-- Actions that the body of `loop()` can emit. -/
def Action.isLoopAction : Action → Bool
  | Action.setGoalPosition _ _ => true
  | Action.printGoalLabel => true
  | Action.printlnInt _ => true
  | Action.delay _ => true
  | _ => false

/- ### Helper lemmas about the machine -/

/-- Every action of a `loop()` body is a loop action. -/
lemma loopBody_all_isLoopAction (startTime now : ℕ) :
    ∀ a ∈ loopBody startTime now, a.isLoopAction = true := by
  intro a ha
  simp only [loopBody, List.mem_cons, List.mem_singleton, List.not_mem_nil] at ha
  rcases ha with rfl | rfl | rfl | rfl | h
  · rfl
  · rfl
  · rfl
  · rfl
  · exact h.elim

/-- After a failed ping, the machine is halted with exactly the failure
trace of `setup()`, forever. -/
lemma run_false_eq (ms : ℕ → ℕ) (n : ℕ) :
    run false ms (n + 1) = ⟨Phase.halted, none, setupTrace false⟩ := by
  induction n with
  | zero => simp [run, step, initState]
  | succ k ih =>
      show step false (ms (k + 1)) (run false ms (k + 1)) = _
      rw [ih]
      rfl

/-- After a successful ping, the machine is looping from step 1 on. -/
lemma run_true_phase (ms : ℕ → ℕ) (n : ℕ) :
    (run true ms (n + 1)).phase = Phase.looping := by
  induction n with
  | zero => simp [run, step, initState]
  | succ k ih =>
      show (step true (ms (k + 1)) (run true ms (k + 1))).phase = _
      rcases hst : run true ms (k + 1) with ⟨ph, s, o⟩
      rw [hst] at ih
      simp only at ih
      subst ih
      rfl

/-- The static `startTime` holds the `millis()` reading of the first loop
iteration (step 1) from then on, and is never modified. -/
lemma run_true_startTime (ms : ℕ → ℕ) (n : ℕ) :
    (run true ms (n + 2)).startTime = some (ms 1) := by
  induction n with
  | zero =>
      show (step true (ms 1) (run true ms 1)).startTime = some (ms 1)
      rcases hst : run true ms 1 with ⟨ph, s, o⟩
      have hph := run_true_phase ms 0
      rw [hst] at hph
      simp only at hph
      have hs : s = none := by
        have : (run true ms 1).startTime = none := by
          simp [run, step, initState]
        rw [hst] at this
        exact this
      subst hph; subst hs
      rfl
  | succ k ih =>
      have hk : k + 1 + 2 = (k + 2) + 1 := by omega
      rw [hk]
      show (step true (ms (k + 2)) (run true ms (k + 2))).startTime = some (ms 1)
      rcases hst : run true ms (k + 2) with ⟨ph, s, o⟩
      have hph := run_true_phase ms (k + 1)
      have hk2 : k + 1 + 1 = k + 2 := by omega
      rw [hk2, hst] at hph
      simp only at hph
      rw [hst] at ih
      simp only at ih
      subst hph; subst ih
      rfl

/-- After a successful ping, the trace is the normal `setup()` trace followed
only by loop-body actions. -/
lemma run_true_out (ms : ℕ → ℕ) (n : ℕ) :
    ∃ rest : List Action, (run true ms (n + 1)).out = setupTrace true ++ rest ∧
      (∀ a ∈ rest, a.isLoopAction = true) := by
  induction n with
  | zero =>
      refine ⟨[], ?_, by simp⟩
      simp [run, step, initState]
  | succ k ih =>
      obtain ⟨rest, hout, hrest⟩ := ih
      show ∃ r, (step true (ms (k + 1)) (run true ms (k + 1))).out = _ ∧ _
      rcases hst : run true ms (k + 1) with ⟨ph, s, o⟩
      have hph := run_true_phase ms k
      rw [hst] at hph
      simp only at hph
      subst hph
      rw [hst] at hout
      simp only at hout
      refine ⟨rest ++ loopBody (s.getD (ms (k + 1))) (ms (k + 1)), ?_, ?_⟩
      · show o ++ loopBody (s.getD (ms (k + 1))) (ms (k + 1)) = _
        rw [hout, List.append_assoc]
      · intro a ha
        rcases List.mem_append.mp ha with h | h
        · exact hrest a h
        · exact loopBody_all_isLoopAction _ _ a h

/-! ### Claim theorems -/

/-- Claim C1 (counterexample): at elapsed time 250 ms (t = 1/4 s) the loop
computes and sends `(int)(2048 + 400·sin(π/4)) = 2330`, while rounding the
same real expression to the nearest integer gives 2331; so the sent goal
position is not `round(center + amplitude·sin(2π·f·t))`. -/
theorem loopGoal_quarter_ne_round :
    loopGoal 0 250 = 2330 ∧ round (positionReal ((250 : ℝ) / 1000)) = 2331 ∧
      loopGoal 0 250 ≠ round (positionReal ((250 : ℝ) / 1000)) := by
  have hg : loopGoal 0 250 = 2330 := by
    unfold loopGoal
    have he : elapsedMs 0 250 = 250 := by
      simp only [elapsedMs, usub32, UMOD]
    rw [he, show ((250 : ℕ) : ℝ) / 1000 = (1/4 : ℝ) by norm_num]
    exact goalPosition_quarter
  have hr : round (positionReal ((250 : ℝ) / 1000)) = 2331 := by
    rw [show ((250 : ℝ) / 1000) = (1/4 : ℝ) by norm_num]
    exact round_positionReal_quarter
  exact ⟨hg, hr, by rw [hg, hr]; omega⟩

/-- Claim C1 (amended): the goal position computed and sent each loop
iteration is the C truncation of the sine expression, which — the expression
being always positive — equals its floor, not its rounding:
`goal = ⌊center + amplitude·sin(2π·f·t)⌋`. -/
theorem loopGoal_eq_floor :
    (∀ startTime now : ℕ, loopGoal startTime now =
        ⌊positionReal ((elapsedMs startTime now : ℝ) / 1000)⌋) ∧
      ∀ t : ℝ, goalPosition t = ⌊positionReal t⌋ := by
  refine ⟨fun s m => ?_, goalPosition_eq_floor⟩
  unfold loopGoal
  exact goalPosition_eq_floor _

/-- Claim C2: for every elapsed time `t` the computed goal position lies in
`[center - amplitude, center + amplitude] = [1648, 2448]`. -/
theorem goalPosition_range : ∀ t : ℝ, 1648 ≤ goalPosition t ∧ goalPosition t ≤ 2448 := by
  intro t
  rw [goalPosition_eq_floor]
  constructor
  · exact Int.le_floor.mpr (by push_cast; exact positionReal_lb t)
  · have h := Int.floor_le_floor (positionReal_ub t)
    rwa [show (2448 : ℝ) = ((2448 : ℤ) : ℝ) by norm_num, Int.floor_intCast] at h

/-- Claim C3: the concrete values `goal_position(0) = 2048`,
`goal_position(0.5) = 2448`, `goal_position(1.0) = 2048`,
`goal_position(1.5) = 1648`, and `goal_position(n · 0.5/frequency) = center`
for every natural `n`. -/
theorem goalPosition_values :
    goalPosition 0 = 2048 ∧ goalPosition (0.5 : ℝ) = 2448 ∧
      goalPosition (1 : ℝ) = 2048 ∧ goalPosition (1.5 : ℝ) = 1648 ∧
      ∀ n : ℕ, goalPosition ((n : ℝ) * (0.5 / SPEED)) = 2048 :=
  ⟨goalPosition_zero, goalPosition_half, goalPosition_one,
   goalPosition_three_halves, goalPosition_nat_mul⟩

/-- Claim C4: the goal-position function is periodic with period
`1/frequency = 2` seconds. -/
theorem goalPosition_periodic : ∀ t : ℝ, goalPosition (t + 1 / SPEED) = goalPosition t := by
  intro t
  have h : positionReal (t + 1 / SPEED) = positionReal t := by
    unfold positionReal SPEED
    rw [show 2 * Real.pi * (0.5 : ℝ) * (t + 1 / (0.5 : ℝ)) =
          2 * Real.pi * (0.5 : ℝ) * t + 2 * Real.pi by ring,
      Real.sin_add_two_pi]
  unfold goalPosition
  rw [h]

/-- Claim C5: if the initial ping fails, the sketch prints the diagnostic
message and halts permanently — the machine state never changes again, stays
in the halted phase, and its trace contains no torque enable, no operating
mode change and no goal-position write. -/
theorem run_ping_failed_halts :
    ∀ (ms : ℕ → ℕ) (n : ℕ),
      run false ms (n + 1) = run false ms 1 ∧
      (run false ms (n + 1)).phase = Phase.halted ∧
      Action.printlnMsg Msg.motorNotResponding ∈ (run false ms (n + 1)).out ∧
      ((run false ms (n + 1)).out.all
        fun a => !a.isTorqueOn && !a.isSetOperatingMode && !a.isSetGoalPosition) = true := by
  intro ms n
  have h1 : run false ms 1 = ⟨Phase.halted, none, setupTrace false⟩ := run_false_eq ms 0
  rw [run_false_eq ms n, h1]
  exact ⟨rfl, rfl, by decide, by decide⟩

/-- Claim C6 (counterexample): the elapsed-time value wraps: at absolute
times `2^32 - 1` ms and `2^32` ms after a start at time 0, the computed
elapsed milliseconds are `2^32 - 1` and then `0`, so the later iteration has
the smaller value and elapsed time is not monotone past `2^32` ms. -/
theorem elapsedAt_wraps :
    elapsedAt 0 4294967295 = 4294967295 ∧ elapsedAt 0 4294967296 = 0 ∧
      elapsedAt 0 4294967296 < elapsedAt 0 4294967295 := by
  refine ⟨?_, ?_, ?_⟩ <;> decide

/-- Claim C6 (amended): the elapsed-time value is monotone along iterations
as long as fewer than `2^32` milliseconds have passed since the recorded
start: for `s ≤ r1 ≤ r2` with `r2 - s < 2^32`, elapsed is nondecreasing. -/
theorem elapsedAt_mono :
    ∀ s r1 r2 : ℕ, s ≤ r1 → r1 ≤ r2 → r2 - s < UMOD →
      elapsedAt s r1 ≤ elapsedAt s r2 := by
  intro s r1 r2 h1 h2 h3
  rw [elapsedAt_eq h1, elapsedAt_eq (h1.trans h2)]
  simp only [UMOD] at *
  omega

/-- Witness for the amended C6 theorem at `s = 0`, `r1 = 3`, `r2 = 5`. -/
theorem elapsedAt_mono_witness :
    0 ≤ 3 ∧ 3 ≤ 5 ∧ 5 - 0 < UMOD ∧ elapsedAt 0 3 ≤ elapsedAt 0 5 :=
  ⟨by decide, by decide, by decide,
   elapsedAt_mono 0 3 5 (by decide) (by decide) (by decide)⟩

/-- Claim C7: the static `startTime` is `none` before the first loop
iteration, holds the first iteration's `millis()` reading forever after, the
first iteration's goal position is the center 2048 (elapsed `t = 0`), and the
trace after the first iteration is the setup trace followed by that one loop
body. -/
theorem startTime_set_once :
    ∀ (ms : ℕ → ℕ) (n : ℕ),
      (run true ms 1).startTime = none ∧
      (run true ms (n + 2)).startTime = some (ms 1) ∧
      loopGoal (ms 1) (ms 1) = 2048 ∧
      (run true ms 2).out = setupTrace true ++ loopBody (ms 1) (ms 1) := by
  intro ms n
  have h1 : run true ms 1 = ⟨Phase.looping, none, setupTrace true⟩ := by
    simp [run, step, initState]
  refine ⟨by rw [h1], run_true_startTime ms n, ?_, ?_⟩
  · unfold loopGoal
    rw [elapsedMs_self, show ((0 : ℕ) : ℝ) / 1000 = (0 : ℝ) by norm_num]
    exact goalPosition_zero
  · show (step true (ms 1) (run true ms 1)).out = _
    rw [h1]
    simp [step]

/-- Claim C8: on a successful ping the trace is: serial configuration, then
the operating-mode change, then torque enable, and goal-position writes only
after all of these. -/
theorem setup_ordered :
    ∀ (ms : ℕ → ℕ) (n : ℕ),
      ∃ l1 l2 l3 rest : List Action,
        (run true ms (n + 1)).out =
          l1 ++ [Action.dxlSerialBegin BAUDRATE] ++ l2 ++
            [Action.setOperatingMode MOTOR_ID OpMode.position] ++ l3 ++
            [Action.torqueOn MOTOR_ID] ++ rest ∧
        ((l1 ++ l2 ++ l3).all fun a => !a.isSetGoalPosition) = true := by
  intro ms n
  obtain ⟨rest0, hout, -⟩ := run_true_out ms n
  refine ⟨[Action.serialBegin 115200],
          [Action.dxlBegin BAUDRATE, Action.setPortProtocolVersion,
           Action.ping MOTOR_ID, Action.torqueOff MOTOR_ID],
          [],
          [Action.writeControlTableItem CtItem.profileVelocity MOTOR_ID 400,
           Action.writeControlTableItem CtItem.profileAcceleration MOTOR_ID 50,
           Action.printlnMsg Msg.sineInit] ++ rest0, ?_, by decide⟩
  rw [hout]
  simp [setupTrace]

/-- Claim C9: in each loop iteration the integer printed on the debug stream
is exactly the integer written as the goal position: the two actions of the
loop body carry the same value. -/
theorem loop_print_matches_write :
    ∀ (startTime now : ℕ) (v : ℤ),
      Action.setGoalPosition MOTOR_ID v ∈ loopBody startTime now ↔
        Action.printlnInt v ∈ loopBody startTime now := by
  intro s m v
  simp [loopBody]

/-- Claim C10: on a successful ping the trace contains exactly one
`PROFILE_VELOCITY = 400` write and exactly one `PROFILE_ACCELERATION = 50`
write, both inside the setup prefix (the loop emits only loop actions), and
torque is disabled before the operating-mode change. -/
theorem setup_extra_config :
    ∀ (ms : ℕ → ℕ) (n : ℕ),
      (run true ms (n + 1)).out.count
          (Action.writeControlTableItem CtItem.profileVelocity MOTOR_ID 400) = 1 ∧
      (run true ms (n + 1)).out.count
          (Action.writeControlTableItem CtItem.profileAcceleration MOTOR_ID 50) = 1 ∧
      (∃ rest, (run true ms (n + 1)).out = setupTrace true ++ rest ∧
        rest.all Action.isLoopAction = true) ∧
      ∃ l1 l2 : List Action,
        setupTrace true = l1 ++ [Action.torqueOff MOTOR_ID] ++ l2 ∧
        Action.setOperatingMode MOTOR_ID OpMode.position ∈ l2 ∧
        (l1.all fun a => !a.isSetOperatingMode) = true := by
  intro ms n
  obtain ⟨rest0, hout, hrest⟩ := run_true_out ms n
  have hcv : rest0.count
      (Action.writeControlTableItem CtItem.profileVelocity MOTOR_ID 400) = 0 := by
    refine List.count_eq_zero.mpr fun hmem => ?_
    have := hrest _ hmem
    simp [Action.isLoopAction] at this
  have hca : rest0.count
      (Action.writeControlTableItem CtItem.profileAcceleration MOTOR_ID 50) = 0 := by
    refine List.count_eq_zero.mpr fun hmem => ?_
    have := hrest _ hmem
    simp [Action.isLoopAction] at this
  refine ⟨?_, ?_, ⟨rest0, hout, List.all_eq_true.mpr hrest⟩, ?_⟩
  · rw [hout, List.count_append, hcv]
    decide
  · rw [hout, List.count_append, hca]
    decide
  · exact ⟨[Action.serialBegin 115200, Action.dxlSerialBegin BAUDRATE,
            Action.dxlBegin BAUDRATE, Action.setPortProtocolVersion,
            Action.ping MOTOR_ID],
           [Action.setOperatingMode MOTOR_ID OpMode.position,
            Action.torqueOn MOTOR_ID,
            Action.writeControlTableItem CtItem.profileVelocity MOTOR_ID 400,
            Action.writeControlTableItem CtItem.profileAcceleration MOTOR_ID 50,
            Action.printlnMsg Msg.sineInit],
           by decide, by decide, by decide⟩

end Fish
